import Mathlib

/-!
Shallow embedding of `trtools/mergeSTR/mergeSTR.py` (the mergeSTR tool of
TRTools): data model, allele reconciliation (`GetRefAllele`,
`GetAltAlleles`), INFO-field reconciliation (`GetInfoItem`), record
emission (`MergeRecords`, `WriteSampleData`), the synchronized merge
cursor (`RecordIterator` with `_next_assert_order`), and the header
construction of FORMAT fields (`WriteMergedHeader`).

Modelling conventions:
* vcf records harmonized by `trh.TRRecordHarmonizer` are modelled by the
  structure `TRRecord`, carrying exactly the attributes mergeSTR.py reads:
  `chrom`, `pos`, `end_pos`, `trimmed_pos`, `trimmed_end_pos`,
  `vcfrecord.REF` (`vcfrecordREF`), `ref_allele`, `vcfrecord.ALT`
  (`vcfrecordALT`), `alt_alleles`, `vcfrecord.ID` (`id`), the `info`
  dict (assoc list), and per-sample genotype data.
* Python `set` objects are modelled as insertion-ordered duplicate-free
  lists (`setInsert`); `sorted` is modelled by `List.insertionSort`
  (both are stable sorts).
* `int(x[4:-1])` / `float(x[1:-1])` sort keys are modelled by exact
  integer / rational parsing of the same substring, defaulting to 0 when
  the substring does not parse (Python would raise there).
* Printed warnings (`common.WARNING`) are modelled as `Warn` values in a
  log; the numeric rendering of FORMAT values is abstracted as
  pre-rendered per-sample strings in `TRRecord.fmtData`.
* Exceptions are modelled by `Except`: `BadOrderException` (a single
  exception class in the source, raised both for unknown contigs and for
  order violations) and `MergeError` (the uncaught `ValueError` /
  `AssertionError` paths of `MergeRecords`).
-/

namespace MergeSTR

/-- `trh.VcfTypes`: the five supported TR genotyper VCF flavours. -/
inductive VcfTypes where
  | gangstr
  | advntr
  | hipstr
  | eh
  | popstr
deriving DecidableEq, Repr, Inhabited

/-- One sample's genotype call: the allele-index columns of
`record.GetGenotypeIndicies()` minus the trailing phase column (`gts`,
entries may be `-1`/`-2` for missing), and the phase column as a Bool
(`True` renders `|`, `False` renders `/`). -/
structure SampleCall where
  gts : List Int
  phased : Bool
deriving DecidableEq, Repr, Inhabited

/-- A harmonized TR record, with exactly the attributes mergeSTR reads. -/
structure TRRecord where
  chrom : String
  pos : Int
  end_pos : Int
  trimmed_pos : Int
  trimmed_end_pos : Int
  vcfrecordREF : String
  ref_allele : String
  vcfrecordALT : List String
  alt_alleles : List String
  id : Option String
  info : List (String × String)
  samples : List SampleCall
  fmtData : List (String × List String)
deriving DecidableEq, Repr, Inhabited

/-- `NOCALLSTRING = "."` -/
def NOCALLSTRING : String := "."

/-- `INFOFIELDS`: tool-specific INFO fields to merge, `(name, required)`. -/
def INFOFIELDS : VcfTypes → List (String × Bool)
  | .gangstr => [("END", true), ("RU", true), ("PERIOD", true), ("REF", true),
      ("EXPTHRESH", true), ("STUTTERUP", false), ("STUTTERDOWN", false), ("STUTTERP", false)]
  | .hipstr => [("INFRAME_PGEOM", false), ("INFRAME_UP", false), ("INFRAME_DOWN", false),
      ("OUTFRAME_PGEOM", false), ("OUTFRAME_UP", false), ("OUTFRAME_DOWN", false),
      ("BPDIFFS", false), ("START", true), ("END", true), ("PERIOD", true),
      ("AN", false), ("REFAC", false), ("AC", false), ("NSKIP", false),
      ("NFILT", false), ("DP", false), ("DSNP", false), ("DSTUTTER", false),
      ("DFLANKINDEL", false)]
  | .eh => [("END", true), ("REF", true), ("REPID", true), ("RL", true),
      ("RU", true), ("SVTYPE", false), ("VARID", true)]
  | .popstr => [("Motif", true)]
  | .advntr => [("END", true), ("VID", true), ("RU", true), ("RC", true)]

/-- `FORMATFIELDS`: tool-specific FORMAT fields to merge. -/
def FORMATFIELDS : VcfTypes → List String
  | .gangstr => ["DP", "Q", "REPCN", "REPCI", "RC", "ENCLREADS", "FLNKREADS", "ML", "INS", "STDERR", "QEXP"]
  | .hipstr => ["GB", "Q", "PQ", "DP", "DSNP", "PSNP", "PDP", "GLDIFF", "DSTUTTER", "DFLANKINDEL", "AB", "FS", "DAB", "ALLREADS", "MALLREADS"]
  | .eh => ["ADFL", "ADIR", "ADSP", "LC", "REPCI", "REPCN", "SO"]
  | .popstr => ["AD", "DP", "PL"]
  | .advntr => ["DP", "SR", "FR", "ML"]

/-- Python `pat in s` substring test, via `splitOn`. -/
def strContains (s pat : String) : Bool := (s.splitOn pat).length ≥ 2

/-- The filter `[line for line in formats if 'ID=' + field + ',' in line]`
used by `WriteMergedHeader` on the FORMAT header lines. -/
def headerMatches (headerLines : List String) (field : String) : List String :=
  headerLines.filter (fun l => strContains l ("ID=" ++ field ++ ","))

/-- The `useformat` list assembled by `WriteMergedHeader`: a FORMAT field
of `FORMATFIELDS[vcftype]` is kept exactly when the first reader's header
has exactly one matching `##FORMAT` line. -/
def buildUseformat (vcftype : VcfTypes) (formatHeaderLines : List String) : List String :=
  (FORMATFIELDS vcftype).filter (fun field => (headerMatches formatHeaderLines field).length = 1)

/-- The records of a group selected by the mergelist: Python loops
`for i in range(len(mergelist)): if mergelist[i]: ... current_records[i]`. -/
def participants (recs : List TRRecord) (ml : List Bool) : List TRRecord :=
  (recs.zip ml).filterMap (fun p => if p.2 then some p.1 else none)

/-- Python `str.upper()`, as a character-wise map (allele strings are
ASCII). -/
def strUpper (s : String) : String := ⟨s.data.map Char.toUpper⟩

/-- The reference allele read for one record in `GetRefAllele`:
`record.vcfrecord.REF.upper()` untrimmed, `record.ref_allele.upper()`
when trimming. -/
def refOf (trim : Bool) (r : TRRecord) : String :=
  strUpper (if trim then r.ref_allele else r.vcfrecordREF)

/-- The `refs` list accumulated by `GetRefAllele`. -/
def refsOf (recs : List TRRecord) (ml : List Bool) (trim : Bool) : List String :=
  (participants recs ml).map (refOf trim)

/-- `GetRefAllele`: the unified reference allele, or `None` when the
participating records' upper-cased references are not all identical
(`len(set(refs)) != 1`). -/
def GetRefAllele (recs : List TRRecord) (ml : List Bool) (trim : Bool) : Option String :=
  match refsOf recs ml trim with
  | [] => none
  | r :: rest => if rest.all (fun x => x = r) then some r else none

/-- `get_alts` inside `GetAltAlleles`: untrimmed `record.vcfrecord.ALT`,
or `record.alt_alleles` when trimming. -/
def get_alts (trim : Bool) (r : TRRecord) : List String :=
  if trim then r.alt_alleles else r.vcfrecordALT

/-- Python `set.add`: append unless already present. -/
def setInsert (l : List String) (a : String) : List String :=
  if a ∈ l then l else l ++ [a]

/-- Collect a list into a Python set, modelled as an insertion-ordered
duplicate-free list. -/
def setInsertAll (l : List String) : List String := l.foldl setInsert []

/-- The upper-cased alternate alleles of all participating records, in
collection order (before deduplication). -/
def altsUpperOf (recs : List TRRecord) (ml : List Bool) (trim : Bool) : List String :=
  (participants recs ml).bind (fun r => (get_alts trim r).map strUpper)

/-- The `alts` set of `GetAltAlleles`. -/
def collectAlts (recs : List TRRecord) (ml : List Bool) (trim : Bool) : List String :=
  setInsertAll (altsUpperOf recs ml trim)

/-- Decimal digit value of a character (`'0'..'9'`), if any. -/
def digitVal (c : Char) : Option Nat :=
  if 48 ≤ c.toNat ∧ c.toNat ≤ 57 then some (c.toNat - 48) else none

/-- Parse a digit run into a natural number. -/
def parseNatAux : List Char → Nat → Option Nat
  | [], acc => some acc
  | c :: cs, acc =>
    match digitVal c with
    | some d => parseNatAux cs (acc * 10 + d)
    | none => none

/-- Python `int` on a non-empty unsigned digit string. -/
def parseNatChars : List Char → Option Nat
  | [] => none
  | l => parseNatAux l 0

/-- Python `int` with an optional sign. -/
def parseIntChars : List Char → Option Int
  | '-' :: cs => (parseNatChars cs).map (fun n => -(n : Int))
  | '+' :: cs => (parseNatChars cs).map (fun n => (n : Int))
  | cs => (parseNatChars cs).map (fun n => (n : Int))

/-- EH sort key `int(x[4:-1])`: EH alleles look like `<STR42>`.  Python
raises on a non-numeric substring; the model defaults that case to 0. -/
def ehKeyVal (s : String) : Int :=
  (parseIntChars ((s.data.drop 4).dropLast)).getD 0

/-- Parse an unsigned decimal numeral (`"4"` or `"4.2"`) into an exact
fraction (numerator, positive denominator). -/
def parseDecimalNonneg (l : List Char) : Option (Int × Nat) :=
  match l.splitOn '.' with
  | [i] => (parseNatChars i).map (fun n => ((n : Int), 1))
  | [i, f] =>
    match parseNatChars i, parseNatChars f with
    | some ip, some fp => some (((ip * 10 ^ f.length + fp : Nat) : Int), 10 ^ f.length)
    | _, _ => none
  | _ => none

/-- Parse a signed decimal numeral into an exact fraction. -/
def parseDecimal (l : List Char) : Option (Int × Nat) :=
  match l with
  | '-' :: cs => (parseDecimalNonneg cs).map (fun p => (-p.1, p.2))
  | '+' :: cs => parseDecimalNonneg cs
  | cs => parseDecimalNonneg cs

/-- popSTR sort key `float(x[1:-1])`: popSTR alleles look like `<4.2>`.
The float value is modelled as the exact decimal fraction; an
unparseable substring (where Python raises) defaults to 0. -/
def popstrKey (s : String) : Int × Nat :=
  (parseDecimal ((s.data.drop 1).dropLast)).getD (0, 1)

/-- Order of EH alleles: by the embedded integer repeat count. -/
def ehLE (a b : String) : Prop := ehKeyVal a ≤ ehKeyVal b

/-- Order of popSTR alleles: by the embedded decimal repeat count
(fractions compared by cross-multiplication). -/
def popstrLE (a b : String) : Prop :=
  (popstrKey a).1 * ((popstrKey b).2 : Int) ≤ (popstrKey b).1 * ((popstrKey a).2 : Int)

/-- Order of all other allele notations: Python key `(len(x), x)`, i.e.
by length, then lexicographically by code point. -/
def lenLex (a b : String) : Prop :=
  a.length < b.length ∨ (a.length = b.length ∧ a.data ≤ b.data)

instance : DecidableRel ehLE := fun _ _ => inferInstanceAs (Decidable (_ ≤ _))
instance : DecidableRel popstrLE := fun _ _ => inferInstanceAs (Decidable (_ ≤ _))
instance : DecidableRel lenLex := fun _ _ => inferInstanceAs (Decidable (_ ∨ _))

/-- Denominators produced by `parseDecimalNonneg` are positive. -/
lemma parseDecimalNonneg_den_pos (l : List Char) (n : Int) (d : Nat)
    (h : parseDecimalNonneg l = some (n, d)) : 0 < d := by
  unfold parseDecimalNonneg at h
  split at h
  · cases hp : parseNatChars _ <;> rw [hp] at h <;> simp at h
    omega
  · next i f _ =>
    cases hp : parseNatChars i <;> rw [hp] at h
    · simp at h
    · cases hq : parseNatChars f <;> rw [hq] at h <;> simp at h
      obtain ⟨_, hd⟩ := h
      rw [← hd]
      exact pow_pos (by omega) _
  · simp at h

/-- Denominators produced by `parseDecimal` are positive. -/
lemma parseDecimal_den_pos (l : List Char) (n : Int) (d : Nat)
    (h : parseDecimal l = some (n, d)) : 0 < d := by
  unfold parseDecimal at h
  split at h
  · next cs =>
    cases hp : parseDecimalNonneg cs <;> rw [hp] at h <;> simp at h
    obtain ⟨_, hd⟩ := h
    exact hd ▸ parseDecimalNonneg_den_pos cs _ _ hp
  · next cs => exact parseDecimalNonneg_den_pos cs _ _ h
  · exact parseDecimalNonneg_den_pos l _ _ h

/-- Denominators produced by `popstrKey` are positive. -/
lemma popstrKey_den_pos (s : String) : 0 < ((popstrKey s).2 : Int) := by
  unfold popstrKey
  cases h : parseDecimal ((s.data.drop 1).dropLast) with
  | none => simp
  | some p =>
    obtain ⟨n, d⟩ := p
    simp only [Option.getD_some]
    exact_mod_cast parseDecimal_den_pos _ n d h

instance : IsTotal String ehLE := ⟨fun _ _ => Int.le_total _ _⟩

instance : IsTrans String ehLE := ⟨fun _ _ _ h1 h2 => le_trans h1 h2⟩

instance : IsTotal String popstrLE := ⟨fun _ _ => Int.le_total _ _⟩

instance : IsTrans String popstrLE := by
  constructor
  intro a b c h1 h2
  have hb := popstrKey_den_pos b
  have ha := popstrKey_den_pos a
  have hc := popstrKey_den_pos c
  unfold popstrLE at h1 h2 ⊢
  have h1' := mul_le_mul_of_nonneg_right h1 (le_of_lt hc)
  have h2' := mul_le_mul_of_nonneg_right h2 (le_of_lt ha)
  rw [mul_right_comm] at h2'
  have := le_trans h1' h2'
  rw [mul_right_comm (popstrKey a).1] at this
  rw [mul_right_comm (popstrKey c).1] at this
  exact le_of_mul_le_mul_right this hb

instance : IsTotal String lenLex := by
  constructor
  intro a b
  rcases Nat.lt_trichotomy a.length b.length with h | h | h
  · exact Or.inl (Or.inl h)
  · rcases le_total a.data b.data with hab | hab
    · exact Or.inl (Or.inr ⟨h, hab⟩)
    · exact Or.inr (Or.inr ⟨h.symm, hab⟩)
  · exact Or.inr (Or.inl h)

instance : IsTrans String lenLex := by
  constructor
  rintro a b c (h1 | ⟨e1, le1⟩) (h2 | ⟨e2, le2⟩)
  · exact Or.inl (h1.trans h2)
  · exact Or.inl (e2 ▸ h1)
  · exact Or.inl (e1 ▸ h2)
  · exact Or.inr ⟨e1.trans e2, le1.trans le2⟩

instance : IsAntisymm String lenLex := by
  constructor
  rintro a b (h1 | ⟨e1, le1⟩) (h2 | ⟨e2, le2⟩)
  · exact absurd h2 (Nat.lt_asymm h1)
  · exact absurd h1 (e2 ▸ lt_irrefl _)
  · exact absurd h2 (e1 ▸ lt_irrefl _)
  · have h3 : a.data = b.data := le_antisymm le1 le2
    cases a
    cases b
    exact congrArg String.mk h3

/-- The `sorted(alts, key=...)` step of `GetAltAlleles`: the key depends
on the vcftype's allele notation. -/
def sortAlts (vcftype : VcfTypes) (alts : List String) : List String :=
  match vcftype with
  | .eh => List.insertionSort ehLE alts
  | .popstr => List.insertionSort popstrLE alts
  | _ => List.insertionSort lenLex alts

/-- First index of `a` in `l` (Python `list.index`; the list it is used
on always contains `a`). -/
def listIndexOf (a : String) : List String → Nat
  | [] => 0
  | b :: l => if b = a then 0 else listIndexOf a l + 1

/-- `GetAltAlleles`: the unified upper-cased alternate allele list,
sorted by the vcftype-specific key, plus one allele-index mapping per
participating record: `[0] + [out_alts.index(ralt.upper()) + 1 for ralt
in ralts]` (the source stores the indices as strings for output;
the model keeps them as numbers). -/
def GetAltAlleles (recs : List TRRecord) (ml : List Bool) (vcftype : VcfTypes)
    (trim : Bool) : List String × List (List Nat) :=
  let out_alts := sortAlts vcftype (collectAlts recs ml trim)
  let mappings := (participants recs ml).map
    (fun r => 0 :: (get_alts trim r).map (fun a => listIndexOf (strUpper a) out_alts + 1))
  (out_alts, mappings)

/-- `GetID`: the record ID, or `"."` when unset. -/
def GetID (idval : Option String) : String := idval.getD "."

/-- The warnings printed through `common.WARNING`, as tags carrying the
context the message interpolates. -/
inductive Warn where
  | unknownContig (fileIdx : Nat) (chrom : String)
  | orderViolation (fileIdx : Nat) (chrom : String) (pos : Int)
  | overlap (fileIdx : Nat) (chrom : String) (pos : Int)
  | conflictingRefs (chrom : String) (pos : Int)
  | incompatibleInfo (field : String) (chrom : String) (pos : Int)
deriving DecidableEq, Repr

/-- The uncaught exceptions that can escape `MergeRecords`: the
`ValueError("Missing info field ...")` of `GetInfoItem`, the
`AttributeError` of warning on an empty group (`a_merged_rec` is `None`),
and the `assert "GT" not in formats` of `WriteSampleData`. -/
inductive MergeError where
  | missingInfoField (field : String)
  | noneCrash
  | assertionError
deriving DecidableEq, Repr

/-- `record.info[field]` lookup (first matching key of the info dict). -/
def lookupInfo (r : TRRecord) (field : String) : Option String :=
  r.info.lookup field

/-- The `vals` set accumulated by `GetInfoItem` over the participating
records, raising on the first record missing the field. -/
def collectVals (field : String) : List TRRecord → List String →
    Except MergeError (List String)
  | [], acc => .ok acc
  | r :: rs, acc =>
    match lookupInfo r field with
    | none => .error (.missingInfoField field)
    | some v => collectVals field rs (setInsert acc v)

/-- `GetInfoItem`: merge one INFO field across the group under the
equality-or-reject policy.  `fail=False` returns `None` outright; a
participating record missing the field raises `ValueError`; identical
values give `field=value`; differing values give `None` plus a warning
located at the last participating record. -/
def GetInfoItem (recs : List TRRecord) (ml : List Bool) (info_field : String)
    (fail : Bool) : Except MergeError (Option String × List Warn) :=
  if !fail then .ok (none, [])
  else
    let prts := participants recs ml
    match collectVals info_field prts [] with
    | .error e => .error e
    | .ok vals =>
      match vals with
      | [v] => .ok (some (info_field ++ "=" ++ v), [])
      | _ =>
        match prts.getLast? with
        | some r => .ok (none, [.incompatibleInfo info_field r.chrom r.pos])
        | none => .error .noneCrash

/-- numpy indexing `mapping[g]` with a possibly negative index
(`-1`/`-2` wrap around from the end of the array). -/
def npGet (mapping : List Nat) (i : Int) : Nat :=
  if i < 0 then mapping.getD ((mapping.length : Int) + i).toNat 0
  else mapping.getD i.toNat 0

/-- Pre-rendered FORMAT value of field `f` for sample `sidx`
(abstracting the numpy string conversions of `WriteSampleData`). -/
def lookupFmt (r : TRRecord) (f : String) (sidx : Nat) : String :=
  ((r.fmtData.lookup f).getD []).getD sidx ""

/-- One sample column of `WriteSampleData`: `"."` for a no-call sample
(all genotype indices `-1`/`-2`), otherwise the re-indexed GT joined by
the phase character followed by `:`-prefixed FORMAT values. -/
def sampleColumn (useformat : List String) (mapping : List Nat) (r : TRRecord)
    (sidx : Nat) (s : SampleCall) : String :=
  if s.gts.all (fun g => g == -1 || g == -2) then NOCALLSTRING
  else
    let phase := if s.phased then "|" else "/"
    let gt := String.intercalate phase (s.gts.map (fun g => toString (npGet mapping g)))
    useformat.foldl (fun acc f => acc ++ ":" ++ lookupFmt r f sidx) gt

/-- `WriteSampleData`: the per-sample columns written for one
participating record (one column per sample of the record).  `none`
models the `assert "GT" not in formats` failing. -/
def WriteSampleData (r : TRRecord) (useformat : List String)
    (mapping : List Nat) : Option (List String) :=
  if "GT" ∈ useformat then none
  else some (r.samples.enum.map (fun p => sampleColumn useformat mapping r p.1 p.2))

/-- The INFO loop of `MergeRecords`: merge each `useinfo` field in order,
collecting the emitted `key=value` items and the warnings; a raised
`ValueError` aborts the whole computation. -/
def infoFold (recs : List TRRecord) (ml : List Bool) :
    List (String × Bool) → Except MergeError (List String × List Warn)
  | [] => .ok ([], [])
  | (field, reqd) :: rest =>
    match GetInfoItem recs ml field reqd with
    | .error e => .error e
    | .ok (item, w) =>
      match infoFold recs ml rest with
      | .error e => .error e
      | .ok (items, ws) => .ok (item.toList ++ items, w ++ ws)

/-- The per-source sample section of `MergeRecords`: a participating
source contributes its `WriteSampleData` columns (consuming the next
allele mapping), a non-participating source with `n` declared samples
contributes `n` no-call columns. -/
def sampleSection (useformat : List String) :
    List TRRecord → List Bool → List Nat → List (List Nat) →
    Option (List (List String))
  | _, [], _, _ => some []
  | recs, m :: ml, ns, maps =>
    match recs, ns with
    | r :: rs, n :: nss =>
      if m then
        match maps with
        | mp :: mps =>
          match WriteSampleData r useformat mp,
              sampleSection useformat rs ml nss mps with
          | some cols, some rest => some (cols :: rest)
          | _, _ => none
        | [] => none
      else
        match sampleSection useformat rs ml nss maps with
        | some rest => some (List.replicate n NOCALLSTRING :: rest)
        | none => none
    | _, _ => none

/-- One merged output row, field by field as `MergeRecords` writes it.
`sampleBlocks` keeps one block of columns per source (the flat
tab-separated output is their concatenation). -/
structure OutRecord where
  chrom : String
  pos : Int
  id : String
  ref : String
  alts : List String
  info : List String
  format : List String
  sampleBlocks : List (List String)
deriving DecidableEq, Repr

/-- `MergeRecords`: merge the mergelist-selected records into one output
row.  Returns `ok (none, ...)` when nothing is written (no participants,
or conflicting reference alleles — reported, not fatal), `ok (some rec,
warns)` for an emitted row, and `error` for the uncaught exception paths.
Note: `GetAltAlleles` is invoked without the `trim` flag, exactly as in
the source (`alt_alleles, mappings = GetAltAlleles(current_records,
mergelist, vcftype)`). -/
def MergeRecords (vcftype : VcfTypes) (num_samples : List Nat)
    (current_records : List TRRecord) (mergelist : List Bool)
    (useinfo : List (String × Bool)) (useformat : List String)
    (trim : Bool) : Except MergeError (Option OutRecord × List Warn) :=
  match participants current_records mergelist with
  | [] => .ok (none, [])
  | first :: _ =>
    match GetRefAllele current_records mergelist trim with
    | none => .ok (none, [.conflictingRefs first.chrom first.pos])
    | some ref_allele =>
      let alt_alleles := (GetAltAlleles current_records mergelist vcftype false).1
      let mappings := (GetAltAlleles current_records mergelist vcftype false).2
      match infoFold current_records mergelist useinfo with
      | .error e => .error e
      | .ok (items, warns) =>
        match sampleSection useformat current_records mergelist num_samples mappings with
        | none => .error .assertionError
        | some blocks =>
          .ok (some {
            chrom := first.chrom
            pos := first.pos
            id := GetID first.id
            ref := ref_allele
            alts := alt_alleles
            info := items
            format := "GT" :: useformat
            sampleBlocks := blocks }, warns)

/-- `class BadOrderException(Exception)`: the single exception class
raised both for an unknown contig and for an order violation; it carries
no payload distinguishing the two. -/
inductive BadOrderException where
  | badOrder
deriving DecidableEq, Repr

/-- Strict lexicographic comparison of Python tuples
`(chroms.index(chrom), pos)`. -/
def pairLt (a b : Nat × Int) : Bool :=
  a.1 < b.1 || (a.1 = b.1 && a.2 < b.2)

/-- `_next_assert_order`: pull the next record of one reader.  Returns
the warnings printed and either `BadOrderException` (unknown contig, or
the new record sorting strictly before the reader's previous record) or
the new current record (`none` at end of stream) together with the rest
of the stream. -/
def _next_assert_order (chroms : List String) (idx : Nat)
    (stream : List TRRecord) (record : Option TRRecord) :
    List Warn × Except BadOrderException (Option TRRecord × List TRRecord) :=
  match stream with
  | [] => ([], .ok (none, []))
  | next_rec :: rest =>
    if next_rec.chrom ∉ chroms then
      ([.unknownContig idx next_rec.chrom], .error .badOrder)
    else
      match record with
      | none => ([], .ok (some next_rec, rest))
      | some prev =>
        if pairLt (chroms.indexOf next_rec.chrom, next_rec.pos)
            (chroms.indexOf prev.chrom, prev.pos) then
          ([.orderViolation idx prev.chrom prev.pos], .error .badOrder)
        else ([], .ok (some next_rec, rest))

/-- State of the synchronized merge cursor between iterations of the
`while True` loop of `RecordIterator`. -/
structure IterState where
  streams : List (List TRRecord)
  records : List (Option TRRecord)
  is_min : List Bool
  curr_chrom_idx : Nat
  prev_pos_end : Option Int
deriving DecidableEq, Repr

/-- The advance phase of one iteration: pull the next record of every
reader flagged `is_min`, clearing the flag; the first
`BadOrderException` aborts the run with its warning. -/
def advancePhase (chroms : List String) :
    Nat → List (List TRRecord) → List (Option TRRecord) → List Bool →
    Except Warn (List (List TRRecord) × List (Option TRRecord) × List Bool)
  | _, [], _, _ => .ok ([], [], [])
  | idx, s :: ss, r :: rs, m :: ms =>
    if m then
      match _next_assert_order chroms idx s r with
      | (ws, .error _) => .error (ws.getD 0 (.orderViolation idx "" 0))
      | (_, .ok (newr, s')) =>
        match advancePhase chroms (idx + 1) ss rs ms with
        | .error w => .error w
        | .ok (ss', rs', ms') => .ok (s' :: ss', newr :: rs', false :: ms')
    else
      match advancePhase chroms (idx + 1) ss rs ms with
      | .error w => .error w
      | .ok (ss', rs', ms') => .ok (s :: ss', r :: rs', m :: ms')
  | _, _ :: _, _, _ => .ok ([], [], [])

/-- Accumulator of the scan over all current records: the candidate
minimum span (`min_pos = none` models `np.inf`, `curr_pos_end = none`
models `-np.inf`), its member indices, and the overlap flag. -/
structure ScanAcc where
  min_pos : Option Int
  curr_pos_end : Option Int
  min_idxs : List Nat
  overlap : Bool
deriving DecidableEq, Repr

/-- `pos <= prev_pos_end` where `none` is `-np.inf`. -/
def leNegInf (pos : Int) : Option Int → Bool
  | none => false
  | some p => pos ≤ p

/-- `end_pos <= min_pos` where `none` is `np.inf`. -/
def lePosInf (e : Int) : Option Int → Bool
  | none => true
  | some m => e ≤ m

/-- `pos < min_pos` where `none` is `np.inf`. -/
def ltPosInf (p : Int) : Option Int → Bool
  | none => true
  | some m => p < m

/-- One record's step of the scan loop body of `RecordIterator`:
skip non-current chromosomes, update the overlap flag by the
`if/elif/elif` chain, then update the candidate minimum group. -/
def scanStep (trim : Bool) (chroms : List String) (curr_chrom_idx : Nat)
    (prev_pos_end : Option Int) (acc : ScanAcc) (idx : Nat)
    (orec : Option TRRecord) : ScanAcc :=
  match orec with
  | none => acc
  | some rec =>
    let chrom_idx := chroms.indexOf rec.chrom
    if chrom_idx > curr_chrom_idx then acc
    else
      let pos := if trim then rec.trimmed_pos else rec.pos
      let end_pos := if trim then rec.trimmed_end_pos else rec.end_pos
      let ov :=
        if leNegInf pos prev_pos_end then true
        else if lePosInf end_pos acc.min_pos ||
            (acc.min_pos == some pos && acc.curr_pos_end == some end_pos) then false
        else if (match acc.min_pos with
                 | some m => pos ≤ m && m ≤ end_pos
                 | none => false) ||
                (match acc.min_pos, acc.curr_pos_end with
                 | some m, some c => m ≤ pos && pos ≤ c
                 | _, _ => false) then true
        else acc.overlap
      let acc := { acc with overlap := ov }
      if ltPosInf pos acc.min_pos then
        { acc with min_pos := some pos, curr_pos_end := some end_pos, min_idxs := [idx] }
      else if acc.min_pos == some pos && acc.curr_pos_end == some end_pos then
        { acc with min_idxs := acc.min_idxs ++ [idx] }
      else acc

/-- One full pass of the `for idx in range(len(readers))` scan loop. -/
def scanPass (trim : Bool) (chroms : List String) (curr_chrom_idx : Nat)
    (prev_pos_end : Option Int) (records : List (Option TRRecord)) : ScanAcc :=
  records.enum.foldl
    (fun acc p => scanStep trim chroms curr_chrom_idx prev_pos_end acc p.1 p.2)
    ⟨none, none, [], false⟩

/-- The `while not seen_chrom` loop: rescan, advancing to the next
chromosome (and resetting the frontier to `-np.inf`) while no record of
the current chromosome is found.  The fuel bounds the chromosome
advances; `none` marks fuel exhaustion (unreachable when some live
record's chromosome is in `chroms`). -/
def scanChrom (trim : Bool) (chroms : List String)
    (records : List (Option TRRecord)) :
    Nat → Nat → Option Int → Option (ScanAcc × Nat × Option Int)
  | 0, _, _ => none
  | fuel + 1, curr, prev =>
    let acc := scanPass trim chroms curr prev records
    if acc.min_pos = none then scanChrom trim chroms records fuel (curr + 1) none
    else some (acc, curr, prev)

/-- `max(prev_pos_end, curr_pos_end)` where `none` is `-np.inf`. -/
def maxNegInf : Option Int → Option Int → Option Int
  | none, b => b
  | some a, none => some a
  | some a, some b => some (max a b)

/-- Set `is_min[idx] = True` for every `idx` of `min_idxs`. -/
def setTrueAt (l : List Bool) (idxs : List Nat) : List Bool :=
  idxs.foldl (fun acc i => acc.set i true) l

/-- The overlap warning printed for one skipped group member
(`records[idx].chrom`, `records[idx].pos`). -/
def overlapWarn (records : List (Option TRRecord)) (idx : Nat) : Warn :=
  match records.getD idx none with
  | some r => .overlap idx r.chrom r.pos
  | none => .overlap idx "" 0

/-- Result of one iteration of the `while True` loop of
`RecordIterator`. -/
inductive StepResult where
  | done
  | stuck
  | err (w : Warn)
  | yielded (group : List (Option TRRecord) × List Bool) (s : IterState)
  | skipped (warns : List Warn) (s : IterState)
deriving DecidableEq, Repr

/-- One iteration of `RecordIterator`: advance flagged readers (fatal
`BadOrderException` gives `err`), terminate when every stream is done,
scan for the minimum-span group, commit the frontier and the `is_min`
flags of the group members, then either yield the group (no overlap) or
drop it with one warning per member (overlap). -/
def step (chroms : List String) (trim : Bool) (s : IterState) : StepResult :=
  match advancePhase chroms 0 s.streams s.records s.is_min with
  | .error w => .err w
  | .ok (streams', records', isMin') =>
    if records'.all (fun r => r.isNone) then .done
    else
      match scanChrom trim chroms records' (chroms.length + 1)
          s.curr_chrom_idx s.prev_pos_end with
      | none => .stuck
      | some (acc, curr', prev') =>
        let newPrev := maxNegInf prev' acc.curr_pos_end
        let isMin'' := setTrueAt isMin' acc.min_idxs
        let s' : IterState := ⟨streams', records', isMin'', curr', newPrev⟩
        if acc.overlap then
          .skipped (acc.min_idxs.map (overlapWarn records')) s'
        else
          .yielded (records', isMin'') s'

/-- The outcome of a whole `RecordIterator` run driven by `main`'s loop:
the yielded groups in order, the warning log, and whether the run ended
with `BadOrderException` (`main` then returns 1 with no further
output). -/
structure RunResult where
  groups : List (List (Option TRRecord) × List Bool)
  warns : List Warn
  err : Option BadOrderException
deriving DecidableEq, Repr

/-- Run the cursor for at most `fuel` iterations (`none` = fuel
exhausted; every real run needs only finitely many iterations). -/
def runIter (chroms : List String) (trim : Bool) :
    Nat → IterState → Option RunResult
  | 0, _ => none
  | fuel + 1, s =>
    match step chroms trim s with
    | .done => some ⟨[], [], none⟩
    | .stuck => none
    | .err w => some ⟨[], [w], some .badOrder⟩
    | .yielded g s' =>
      (runIter chroms trim fuel s').map (fun r => ⟨g :: r.groups, r.warns, r.err⟩)
    | .skipped ws s' =>
      (runIter chroms trim fuel s').map (fun r => ⟨r.groups, ws ++ r.warns, r.err⟩)

/-- The initial cursor state: no current records, every reader flagged
for advancing, chromosome index 0, frontier `-np.inf`. -/
def initState (streams : List (List TRRecord)) : IterState :=
  ⟨streams, List.replicate streams.length none,
   List.replicate streams.length true, 0, none⟩

/-- `RecordIterator` as run by `main`: iterate from the initial state. -/
def RecordIterator (readers : List (List TRRecord)) (chroms : List String)
    (trim : Bool) (fuel : Nat) : Option RunResult :=
  runIter chroms trim fuel (initState readers)

/-- The needs-advance flags left by one cursor iteration. -/
def stepIsMin : StepResult → List Bool
  | .yielded _ s => s.is_min
  | .skipped _ s => s.is_min
  | _ => []

/-- The warnings printed by one cursor iteration. -/
def stepWarns : StepResult → List Warn
  | .skipped ws _ => ws
  | .err w => [w]
  | _ => []

/-! Concrete fixture records used by witnesses and counterexamples. -/

/-- Record on chr1 spanning positions 10..20. -/
def recA : TRRecord :=
  { chrom := "chr1", pos := 10, end_pos := 20, trimmed_pos := 10,
    trimmed_end_pos := 20, vcfrecordREF := "TCTG", ref_allele := "TCTG",
    vcfrecordALT := ["TCTGTCTG"], alt_alleles := ["TCTGTCTG"],
    id := some "locusA", info := [("END", "20")],
    samples := [⟨[0, 1], false⟩], fmtData := [] }

/-- Record on chr1 spanning positions 15..25: it partially overlaps
`recA` without matching its span. -/
def recB : TRRecord :=
  { chrom := "chr1", pos := 15, end_pos := 25, trimmed_pos := 15,
    trimmed_end_pos := 25, vcfrecordREF := "TCTG", ref_allele := "TCTG",
    vcfrecordALT := ["TCTGTCTGTCTG"], alt_alleles := ["TCTGTCTGTCTG"],
    id := none, info := [("END", "25")],
    samples := [⟨[0, 0], true⟩], fmtData := [] }

/-- Record on chr1 spanning positions 100..110. -/
def recC : TRRecord :=
  { chrom := "chr1", pos := 100, end_pos := 110, trimmed_pos := 100,
    trimmed_end_pos := 110, vcfrecordREF := "A", ref_allele := "A",
    vcfrecordALT := ["AA"], alt_alleles := ["AA"],
    id := none, info := [], samples := [], fmtData := [] }

/-- Record on chr1 spanning positions 50..60: appended after `recC` it
violates the sorted-input precondition. -/
def recEarly : TRRecord :=
  { chrom := "chr1", pos := 50, end_pos := 60, trimmed_pos := 50,
    trimmed_end_pos := 60, vcfrecordREF := "A", ref_allele := "A",
    vcfrecordALT := ["AA"], alt_alleles := ["AA"],
    id := none, info := [], samples := [], fmtData := [] }

/-- Record on contig chrX, absent from the contig list `["chr1"]`. -/
def recX : TRRecord :=
  { chrom := "chrX", pos := 5, end_pos := 6, trimmed_pos := 5,
    trimmed_end_pos := 6, vcfrecordREF := "A", ref_allele := "A",
    vcfrecordALT := ["AA"], alt_alleles := ["AA"],
    id := none, info := [], samples := [], fmtData := [] }

/-- The cursor state after the first iteration on `[[recA], [recB]]`:
only the group member (file 0) is flagged for advancing. -/
def c2AfterStep : IterState :=
  ⟨[[], []], [some recA, some recB], [true, false], 0, some 20⟩

/-- C2: Spec claims a partially-overlapping record is excluded from the
group, marked needs-advance (not retried) and warned.  In the code only
the minimum-span group members (`min_idxs`) are marked needs-advance and
warned: with `recA` (10..20) and `recB` (15..25), the first iteration
flags overlap because of `recB`, but marks and warns only file 0's
`recA`; `recB` stays pending (`is_min = [true, false]`) and is
re-examined, and warned again, on the next iteration. -/
theorem C2_counterexample :
    stepIsMin (step ["chr1"] false (initState [[recA], [recB]])) = [true, false] ∧
    stepWarns (step ["chr1"] false (initState [[recA], [recB]])) =
      [.overlap 0 "chr1" 10] ∧
    RecordIterator [[recA], [recB]] ["chr1"] false 10 =
      some ⟨[], [.overlap 0 "chr1" 10, .overlap 1 "chr1" 15], none⟩ :=
  ⟨rfl, rfl, rfl⟩

/-- C2 (amended): when a record's span partially overlaps the frontier
or the candidate group's span, the group's overlap flag is set, the
group is not yielded, exactly the minimum-span group members are marked
needs-advance and receive the per-locus warning, while an overlapping
record that is not a group member stays pending and is re-examined (and
warned) on the following iteration; the run continues rather than
aborting.  First conjunct: a skipped iteration contributes its warnings
and no group, and the run continues from the successor state.  Second
conjunct: the full `recA`/`recB` trace. -/
theorem C2_overlap_group_dropped :
    (∀ (chroms : List String) (trim : Bool) (fuel : Nat) (s : IterState)
       (ws : List Warn) (s' : IterState),
       step chroms trim s = .skipped ws s' →
       runIter chroms trim (fuel + 1) s =
         (runIter chroms trim fuel s').map
           (fun r => ⟨r.groups, ws ++ r.warns, r.err⟩)) ∧
    RecordIterator [[recA], [recB]] ["chr1"] false 10 =
      some ⟨[], [.overlap 0 "chr1" 10, .overlap 1 "chr1" 15], none⟩ := by
  constructor
  · intro chroms trim fuel s ws s' h
    simp [runIter, h]
  · rfl

/-- Witness for `C2_overlap_group_dropped` at the concrete first
iteration of the `recA`/`recB` run. -/
theorem C2_overlap_group_dropped_witness :
    runIter ["chr1"] false 3 (initState [[recA], [recB]]) =
      (runIter ["chr1"] false 2 c2AfterStep).map
        (fun r => ⟨r.groups, [Warn.overlap 0 "chr1" 10] ++ r.warns, r.err⟩) :=
  C2_overlap_group_dropped.1 ["chr1"] false 2 (initState [[recA], [recB]])
    [Warn.overlap 0 "chr1" 10] c2AfterStep rfl

/-- C3: a source stream whose next record sorts strictly before the
previous one under (contig-order index, start position) raises the fatal
order-violation exception, and the run aborts with no further yielded
groups.  First conjunct: `_next_assert_order` raises on any such pair.
Second conjunct: the concrete run `[recC, recEarly]` yields the group
for `recC`, then terminates with `BadOrderException` and no output for
`recEarly` or anything after it. -/
theorem C3_order_violation_fatal :
    (∀ (chroms : List String) (idx : Nat) (next_rec : TRRecord)
       (rest : List TRRecord) (prev : TRRecord),
       next_rec.chrom ∈ chroms →
       pairLt (chroms.indexOf next_rec.chrom, next_rec.pos)
              (chroms.indexOf prev.chrom, prev.pos) = true →
       _next_assert_order chroms idx (next_rec :: rest) (some prev) =
         ([.orderViolation idx prev.chrom prev.pos], .error .badOrder)) ∧
    RecordIterator [[recC, recEarly]] ["chr1"] false 10 =
      some ⟨[([some recC], [true])], [.orderViolation 0 "chr1" 100],
        some .badOrder⟩ := by
  constructor
  · intro chroms idx next_rec rest prev hmem hlt
    simp [_next_assert_order, hmem, hlt]
  · rfl

/-- Witness for `C3_order_violation_fatal`: the concrete out-of-order
pair `recC` (pos 100) followed by `recEarly` (pos 50). -/
theorem C3_order_violation_fatal_witness :
    _next_assert_order ["chr1"] 0 [recEarly] (some recC) =
      ([.orderViolation 0 "chr1" 100], .error .badOrder) :=
  C3_order_violation_fatal.1 ["chr1"] 0 recEarly [] recC (by decide) (by decide)

/-- C8: Spec claims the unknown-contig and order-violation failures
propagate as two distinguishable exceptions (`UnknownContig` vs
`OrderViolation`).  In the code both paths raise the single class
`BadOrderException` with no payload: the two concrete runs below end
with the identical propagated failure value (only the printed warnings
differ). -/
theorem C8_counterexample :
    RecordIterator [[recX]] ["chr1"] false 10 =
      some ⟨[], [.unknownContig 0 "chrX"], some .badOrder⟩ ∧
    RecordIterator [[recC, recEarly]] ["chr1"] false 10 =
      some ⟨[([some recC], [true])], [.orderViolation 0 "chr1" 100],
        some .badOrder⟩ ∧
    (RecordIterator [[recX]] ["chr1"] false 10).map RunResult.err =
      (RecordIterator [[recC, recEarly]] ["chr1"] false 10).map RunResult.err :=
  ⟨rfl, rfl, rfl⟩

/-- C8 (amended): an order violation and an unknown contig are both
fatal: each aborts the whole run immediately, and both propagate to the
caller as the same exception `BadOrderException`; they are told apart
only by the warning messages logged before raising, not by the
propagated failure. -/
theorem C8_both_fatal_same_exception :
    (∀ (chroms : List String) (idx : Nat) (next_rec : TRRecord)
       (rest : List TRRecord) (prev : Option TRRecord),
       next_rec.chrom ∉ chroms →
       _next_assert_order chroms idx (next_rec :: rest) prev =
         ([.unknownContig idx next_rec.chrom], .error .badOrder)) ∧
    (∀ (chroms : List String) (idx : Nat) (next_rec : TRRecord)
       (rest : List TRRecord) (prev : TRRecord),
       next_rec.chrom ∈ chroms →
       pairLt (chroms.indexOf next_rec.chrom, next_rec.pos)
              (chroms.indexOf prev.chrom, prev.pos) = true →
       _next_assert_order chroms idx (next_rec :: rest) (some prev) =
         ([.orderViolation idx prev.chrom prev.pos], .error .badOrder)) ∧
    (∀ (chroms : List String) (trim : Bool) (fuel : Nat) (s : IterState)
       (w : Warn),
       step chroms trim s = .err w →
       runIter chroms trim (fuel + 1) s = some ⟨[], [w], some .badOrder⟩) := by
  refine ⟨?_, ?_, ?_⟩
  · intro chroms idx next_rec rest prev hmem
    simp [_next_assert_order, hmem]
  · intro chroms idx next_rec rest prev hmem hlt
    simp [_next_assert_order, hmem, hlt]
  · intro chroms trim fuel s w h
    simp [runIter, h]

/-- Witness for `C8_both_fatal_same_exception`: the unknown-contig
record `recX` against contig list `["chr1"]`. -/
theorem C8_both_fatal_same_exception_witness :
    _next_assert_order ["chr1"] 0 [recX] none =
      ([.unknownContig 0 "chrX"], .error .badOrder) :=
  C8_both_fatal_same_exception.1 ["chr1"] 0 recX [] none (by decide)

/-- C10: no `FORMATFIELDS` entry is the string `"GT"`, the FORMAT list
assembled by `WriteMergedHeader` is a filter of `FORMATFIELDS[vcftype]`,
so it never contains `"GT"` and the `assert "GT" not in formats` at the
start of `WriteSampleData` succeeds on every run that reaches sample
output. -/
theorem C10_gt_assert_never_fails :
    (∀ vt : VcfTypes, (FORMATFIELDS vt).contains "GT" = false) ∧
    (∀ (vt : VcfTypes) (hl : List String),
      (buildUseformat vt hl).contains "GT" = false) ∧
    (∀ (vt : VcfTypes) (hl : List String) (r : TRRecord) (mp : List Nat),
      (WriteSampleData r (buildUseformat vt hl) mp).isSome = true) := by
  have h1 : ∀ vt : VcfTypes, (FORMATFIELDS vt).contains "GT" = false := by
    intro vt; cases vt <;> decide
  have h2 : ∀ (vt : VcfTypes) (hl : List String),
      (buildUseformat vt hl).contains "GT" = false := by
    intro vt hl
    have h3 : "GT" ∉ FORMATFIELDS vt := by simpa using h1 vt
    have h4 : "GT" ∉ buildUseformat vt hl :=
      fun hmem => h3 (List.mem_of_mem_filter hmem)
    simpa using h4
  refine ⟨h1, h2, ?_⟩
  intro vt hl r mp
  have h3 : "GT" ∉ buildUseformat vt hl := by simpa using h2 vt hl
  simp [WriteSampleData, h3]

/-- Destructuring of a successful, emitting `MergeRecords` call: the
emitted fields come from `GetRefAllele` (with the caller's trim flag),
`GetAltAlleles` (with `trim = false`), `infoFold` and `sampleSection`. -/
lemma MergeRecords_ok_some (vt : VcfTypes) (ns : List Nat)
    (recs : List TRRecord) (ml : List Bool) (ui : List (String × Bool))
    (uf : List String) (trim : Bool) (out : OutRecord) (ws : List Warn)
    (hok : MergeRecords vt ns recs ml ui uf trim = .ok (some out, ws)) :
    GetRefAllele recs ml trim = some out.ref ∧
    out.alts = (GetAltAlleles recs ml vt false).1 ∧
    ∃ first rest blocks,
      participants recs ml = first :: rest ∧
      infoFold recs ml ui = .ok (out.info, ws) ∧
      sampleSection uf recs ml ns (GetAltAlleles recs ml vt false).2 =
        some blocks ∧
      out.sampleBlocks = blocks ∧
      out.chrom = first.chrom ∧ out.pos = first.pos ∧
      out.format = "GT" :: uf := by
  unfold MergeRecords at hok
  split at hok
  · exact absurd hok (by simp)
  next first rest hpart =>
    split at hok
    · exact absurd hok (by simp)
    next ref href =>
      simp only [] at hok
      split at hok
      · exact absurd hok (by simp)
      next items warns hinfo =>
        split at hok
        · exact absurd hok (by simp)
        next blocks hblocks =>
          simp only [Except.ok.injEq, Prod.mk.injEq, Option.some.injEq] at hok
          obtain ⟨hout, hws⟩ := hok
          subst hws
          refine ⟨?_, ?_, first, rest, blocks, hpart, ?_, hblocks, ?_, ?_, ?_, ?_⟩ <;>
            simp [← hout, href, hinfo]

/-- C1: the unified reference allele is the upper-cased reference shared
by all participating records; on agreement the group's unified
reference is that shared allele and it is what `MergeRecords` emits; on
disagreement `GetRefAllele` yields `None` and `MergeRecords` emits
nothing for that span, reporting a conflicting-refs warning and
returning normally (the run continues). -/
theorem C1_unified_reference (recs : List TRRecord) (ml : List Bool)
    (trim : Bool) :
    (∀ v : String, refsOf recs ml trim ≠ [] →
       (∀ x ∈ refsOf recs ml trim, x = v) →
       GetRefAllele recs ml trim = some v) ∧
    (∀ x y : String, x ∈ refsOf recs ml trim → y ∈ refsOf recs ml trim →
       x ≠ y → GetRefAllele recs ml trim = none) ∧
    (∀ (vt : VcfTypes) (ns : List Nat) (ui : List (String × Bool))
       (uf : List String) (first : TRRecord) (rest : List TRRecord),
       participants recs ml = first :: rest →
       GetRefAllele recs ml trim = none →
       MergeRecords vt ns recs ml ui uf trim =
         .ok (none, [.conflictingRefs first.chrom first.pos])) ∧
    (∀ (vt : VcfTypes) (ns : List Nat) (ui : List (String × Bool))
       (uf : List String) (out : OutRecord) (ws : List Warn),
       MergeRecords vt ns recs ml ui uf trim = .ok (some out, ws) →
       GetRefAllele recs ml trim = some out.ref) := by
  refine ⟨?_, ?_, ?_, ?_⟩
  · intro v hne hall
    cases h : refsOf recs ml trim with
    | nil => exact absurd h hne
    | cons r rest =>
      have hr : r = v := hall r (h ▸ List.mem_cons_self r rest)
      subst hr
      have hrest : rest.all (fun x => x = r) = true := by
        simp only [List.all_eq_true, decide_eq_true_eq]
        intro x hx
        exact hall x (h ▸ List.mem_cons_of_mem r hx)
      simp [GetRefAllele, h, hrest]
  · intro x y hx hy hne
    cases h : refsOf recs ml trim with
    | nil => exact absurd (h ▸ hx) (List.not_mem_nil x)
    | cons r rest =>
      have hrest : rest.all (fun z => z = r) = false := by
        by_contra hc
        have hall : ∀ z ∈ rest, z = r := by
          have := eq_true_of_ne_false hc
          simpa only [List.all_eq_true, decide_eq_true_eq] using this
        have hxr : x = r := by
          rcases List.mem_cons.mp (h ▸ hx) with h1 | h1
          · exact h1
          · exact hall x h1
        have hyr : y = r := by
          rcases List.mem_cons.mp (h ▸ hy) with h1 | h1
          · exact h1
          · exact hall y h1
        exact hne (hxr.trans hyr.symm)
      simp [GetRefAllele, h, hrest]
  · intro vt ns ui uf first rest hpart hnone
    simp [MergeRecords, hpart, hnone]
  · intro vt ns ui uf out ws hok
    exact (MergeRecords_ok_some vt ns recs ml ui uf trim out ws hok).1

/-- Witness for `C1_unified_reference`: `recA` and `recB` share the
reference `TCTG`. -/
theorem C1_unified_reference_witness :
    GetRefAllele [recA, recB] [true, true] false = some "TCTG" :=
  (C1_unified_reference [recA, recB] [true, true] false).1 "TCTG"
    (by decide) (by decide)

/-- Membership in a fold of Python `set.add` steps. -/
lemma mem_foldl_setInsert (l : List String) :
    ∀ (init : List String) (a : String),
      a ∈ l.foldl setInsert init ↔ a ∈ init ∨ a ∈ l := by
  induction l with
  | nil => intro init a; simp
  | cons x xs ih =>
    intro init a
    simp only [List.foldl_cons, ih, List.mem_cons]
    unfold setInsert
    by_cases hx : x ∈ init
    · simp only [hx, if_true]
      constructor
      · rintro (h | h)
        · exact Or.inl h
        · exact Or.inr (Or.inr h)
      · rintro (h | h | h)
        · exact Or.inl h
        · exact Or.inl (h ▸ hx)
        · exact Or.inr h
    · simp only [hx, if_false, List.mem_append, List.mem_singleton]
      tauto

/-- A fold of Python `set.add` steps keeps the accumulator
duplicate-free. -/
lemma nodup_foldl_setInsert (l : List String) :
    ∀ init : List String, init.Nodup → (l.foldl setInsert init).Nodup := by
  induction l with
  | nil => intro init h; simpa
  | cons x xs ih =>
    intro init h
    simp only [List.foldl_cons]
    apply ih
    unfold setInsert
    by_cases hx : x ∈ init
    · simpa [hx]
    · simp [hx, List.nodup_append, h]

/-- The modelled Python set has the members of the collected list. -/
lemma mem_setInsertAll (l : List String) (a : String) :
    a ∈ setInsertAll l ↔ a ∈ l := by
  unfold setInsertAll
  rw [mem_foldl_setInsert]
  simp

/-- The modelled Python set is duplicate-free. -/
lemma nodup_setInsertAll (l : List String) : (setInsertAll l).Nodup :=
  nodup_foldl_setInsert l [] List.nodup_nil

/-- Sorting the alternate alleles does not change membership. -/
lemma mem_sortAlts (vt : VcfTypes) (l : List String) (a : String) :
    a ∈ sortAlts vt l ↔ a ∈ l := by
  cases vt <;> simp [sortAlts]

/-- Sorting the alternate alleles permutes them. -/
lemma sortAlts_perm (vt : VcfTypes) (l : List String) :
    (sortAlts vt l).Perm l := by
  cases vt <;> exact List.perm_insertionSort _ _

/-- C4: the unified alternate-allele list is the deduplicated
upper-cased union of the participating records' alternates, ordered by
the vcftype-dependent key: EH alleles by the embedded integer, popSTR
alleles by the embedded decimal magnitude, all other notations by
(string length, then lexical order) — for which the sorted result is
moreover uniquely determined by the allele set. -/
theorem C4_alt_allele_ordering (recs : List TRRecord) (ml : List Bool)
    (trim : Bool) (vt : VcfTypes) :
    ((∀ a, a ∈ (GetAltAlleles recs ml vt trim).1 ↔
        a ∈ altsUpperOf recs ml trim) ∧
      (GetAltAlleles recs ml vt trim).1.Nodup) ∧
    (vt = .eh → (GetAltAlleles recs ml vt trim).1.Sorted ehLE) ∧
    (vt = .popstr → (GetAltAlleles recs ml vt trim).1.Sorted popstrLE) ∧
    (vt ≠ .eh → vt ≠ .popstr →
      (GetAltAlleles recs ml vt trim).1.Sorted lenLex ∧
      (∀ l', l'.Perm (GetAltAlleles recs ml vt trim).1 →
        l'.Sorted lenLex → l' = (GetAltAlleles recs ml vt trim).1)) := by
  have hfst : (GetAltAlleles recs ml vt trim).1 =
      sortAlts vt (collectAlts recs ml trim) := rfl
  refine ⟨⟨?_, ?_⟩, ?_, ?_, ?_⟩
  · intro a
    rw [hfst, mem_sortAlts]
    unfold collectAlts
    exact mem_setInsertAll _ a
  · rw [hfst]
    exact ((sortAlts_perm vt _).nodup_iff).mpr (nodup_setInsertAll _)
  · rintro rfl
    rw [hfst]
    exact List.sorted_insertionSort ehLE _
  · rintro rfl
    rw [hfst]
    exact List.sorted_insertionSort popstrLE _
  · intro h1 h2
    have hs : sortAlts vt (collectAlts recs ml trim) =
        List.insertionSort lenLex (collectAlts recs ml trim) := by
      cases vt
      · rfl
      · rfl
      · rfl
      · exact absurd rfl h1
      · exact absurd rfl h2
    constructor
    · rw [hfst, hs]
      exact List.sorted_insertionSort lenLex _
    · intro l' hperm hsort
      rw [hfst, hs] at hperm ⊢
      exact List.eq_of_perm_of_sorted hperm hsort
        (List.sorted_insertionSort lenLex _)

/-- An EH-style record with symbolic alternate alleles. -/
def recEH : TRRecord :=
  { chrom := "chr1", pos := 30, end_pos := 40, trimmed_pos := 30,
    trimmed_end_pos := 40, vcfrecordREF := "CAG", ref_allele := "CAG",
    vcfrecordALT := ["<STR42>", "<STR5>", "<STR12>"],
    alt_alleles := ["<STR42>", "<STR5>", "<STR12>"],
    id := none, info := [], samples := [], fmtData := [] }

/-- Witness for `C4_alt_allele_ordering`: the EH branch at a concrete
record whose alleles sort by their embedded repeat counts. -/
theorem C4_alt_allele_ordering_witness :
    (GetAltAlleles [recEH] [true] VcfTypes.eh false).1.Sorted ehLE ∧
    (GetAltAlleles [recEH] [true] VcfTypes.eh false).1 =
      ["<STR5>", "<STR12>", "<STR42>"] :=
  ⟨(C4_alt_allele_ordering [recEH] [true] false .eh).2.1 rfl, by decide⟩

/-- Python `list.index` finds its argument when present. -/
lemma listIndexOf_getElem? (a : String) :
    ∀ l : List String, a ∈ l → l[listIndexOf a l]? = some a := by
  intro l
  induction l with
  | nil => simp
  | cons b bs ih =>
    intro h
    unfold listIndexOf
    by_cases hb : b = a
    · simp [hb]
    · have hmem : a ∈ bs := by
        rcases List.mem_cons.mp h with h1 | h1
        · exact absurd h1.symm hb
        · exact h1
      simp [hb, ih hmem]

/-- C5: every participating record's AlleleMap sends local index 0 (its
reference) to 0, and local alternate `j` to a 1-based position of that
alternate's upper-cased string in the unified alternate list; and on the
spec's example (`recA`: ref TCTG, alts [TCTGTCTG]; `recB`: ref TCTG,
alts [TCTGTCTGTCTG]) the unified alternates are
[TCTGTCTG, TCTGTCTGTCTG] with AlleleMaps [0,1] and [0,2]. -/
theorem C5_allele_maps (recs : List TRRecord) (ml : List Bool)
    (vt : VcfTypes) (trim : Bool) :
    (∀ (k : Nat) (r : TRRecord), (participants recs ml)[k]? = some r →
       ∃ mp, (GetAltAlleles recs ml vt trim).2[k]? = some mp ∧
         mp[0]? = some 0 ∧
         (∀ (j : Nat) (a : String), (get_alts trim r)[j]? = some a →
           ∃ m, mp[j + 1]? = some (m + 1) ∧
             (GetAltAlleles recs ml vt trim).1[m]? = some (strUpper a))) ∧
    GetAltAlleles [recA, recB] [true, true] .hipstr false =
      (["TCTGTCTG", "TCTGTCTGTCTG"], [[0, 1], [0, 2]]) := by
  have hsnd : (GetAltAlleles recs ml vt trim).2 = (participants recs ml).map
      (fun r => 0 :: (get_alts trim r).map
        (fun a => listIndexOf (strUpper a) (GetAltAlleles recs ml vt trim).1 + 1)) :=
    rfl
  constructor
  · intro k r hk
    refine ⟨0 :: (get_alts trim r).map
      (fun a => listIndexOf (strUpper a) (GetAltAlleles recs ml vt trim).1 + 1),
      ?_, by simp, ?_⟩
    · rw [hsnd, List.getElem?_map, hk]
      rfl
    · intro j a hj
      refine ⟨listIndexOf (strUpper a) (GetAltAlleles recs ml vt trim).1, ?_, ?_⟩
      · simp [List.getElem?_map, hj]
      · apply listIndexOf_getElem?
        have hrmem : r ∈ participants recs ml := by
          obtain ⟨hlt, he⟩ := List.getElem?_eq_some.mp hk
          exact he ▸ List.getElem_mem hlt
        have hamem : a ∈ get_alts trim r := by
          obtain ⟨hlt, he⟩ := List.getElem?_eq_some.mp hj
          exact he ▸ List.getElem_mem hlt
        have hup : strUpper a ∈ altsUpperOf recs ml trim := by
          unfold altsUpperOf
          exact List.mem_bind.mpr ⟨r, hrmem, List.mem_map_of_mem _ hamem⟩
        have hfst_eq : (GetAltAlleles recs ml vt trim).1 =
          sortAlts vt (collectAlts recs ml trim) := rfl
        rw [hfst_eq, mem_sortAlts]
        unfold collectAlts
        exact (mem_setInsertAll _ _).mpr hup
  · decide

/-- Witness for `C5_allele_maps`: the allele map of `recA`, the first
participant of the spec example. -/
theorem C5_allele_maps_witness :
    ∃ mp, (GetAltAlleles [recA, recB] [true, true] VcfTypes.hipstr false).2[0]? =
        some mp ∧
      mp[0]? = some 0 ∧
      (∀ (j : Nat) (a : String), (get_alts false recA)[j]? = some a →
        ∃ m, mp[j + 1]? = some (m + 1) ∧
          (GetAltAlleles [recA, recB] [true, true] VcfTypes.hipstr false).1[m]? =
            some (strUpper a)) :=
  (C5_allele_maps [recA, recB] [true, true] .hipstr false).1 0 recA (by decide)

/-- A successful `WriteSampleData` call emits one column per sample. -/
lemma WriteSampleData_length (r : TRRecord) (uf : List String)
    (mp : List Nat) (cols : List String)
    (h : WriteSampleData r uf mp = some cols) :
    cols.length = r.samples.length := by
  unfold WriteSampleData at h
  split at h
  · exact absurd h (by simp)
  · simp only [Option.some.injEq] at h
    rw [← h]
    simp [List.enum_length]

/-- Shape of a successful sample section: one block of columns per
source, no-call blocks for the non-participating sources, and one
column per sample for the participating ones. -/
lemma sampleSection_spec (uf : List String) :
    ∀ (ml : List Bool) (recs : List TRRecord) (ns : List Nat)
      (maps : List (List Nat)) (blocks : List (List String)),
      sampleSection uf recs ml ns maps = some blocks →
      recs.length = ml.length → ns.length = ml.length →
      blocks.length = ml.length ∧
      (∀ i : Nat, ml[i]? = some false →
        blocks[i]? = some (List.replicate (ns.getD i 0) NOCALLSTRING)) ∧
      (∀ i : Nat, ml[i]? = some true →
        ∃ (r : TRRecord) (cols : List String), recs[i]? = some r ∧
          blocks[i]? = some cols ∧ cols.length = r.samples.length) := by
  intro ml
  induction ml with
  | nil =>
    intro recs ns maps blocks hss h1 h2
    simp only [sampleSection, Option.some.injEq] at hss
    subst hss
    refine ⟨rfl, ?_, ?_⟩ <;> intro i h <;> simp at h
  | cons m ml ih =>
    intro recs ns maps blocks hss h1 h2
    cases recs with
    | nil => simp at h1
    | cons r rs =>
      cases ns with
      | nil => simp at h2
      | cons n nss =>
        have h1' : rs.length = ml.length := by simpa using h1
        have h2' : nss.length = ml.length := by simpa using h2
        simp only [sampleSection] at hss
        cases m with
        | true =>
          simp only [if_true] at hss
          cases maps with
          | nil => simp at hss
          | cons mp mps =>
            cases hw : WriteSampleData r uf mp with
            | none => simp [hw] at hss
            | some cols =>
              cases hrest : sampleSection uf rs ml nss mps with
              | none => simp [hw, hrest] at hss
              | some rest =>
                simp only [hw, hrest, Option.some.injEq] at hss
                subst hss
                obtain ⟨ihl, ihf, iht⟩ := ih rs nss mps rest hrest h1' h2'
                refine ⟨by simpa using ihl, ?_, ?_⟩
                · intro i hi
                  cases i with
                  | zero => simp at hi
                  | succ i =>
                    simp only [List.getElem?_cons_succ, List.getD_cons_succ] at hi ⊢
                    exact ihf i hi
                · intro i hi
                  cases i with
                  | zero =>
                    exact ⟨r, cols, by simp, by simp, WriteSampleData_length r uf mp cols hw⟩
                  | succ i =>
                    simp only [List.getElem?_cons_succ] at hi ⊢
                    exact iht i hi
        | false =>
          simp only [if_false, Bool.false_eq_true] at hss
          cases hrest : sampleSection uf rs ml nss maps with
          | none => simp [hrest] at hss
          | some rest =>
            simp only [hrest, Option.some.injEq] at hss
            subst hss
            obtain ⟨ihl, ihf, iht⟩ := ih rs nss maps rest hrest h1' h2'
            refine ⟨by simpa using ihl, ?_, ?_⟩
            · intro i hi
              cases i with
              | zero => simp
              | succ i =>
                simp only [List.getElem?_cons_succ, List.getD_cons_succ] at hi ⊢
                exact ihf i hi
            · intro i hi
              cases i with
              | zero => simp at hi
              | succ i =>
                simp only [List.getElem?_cons_succ] at hi ⊢
                exact iht i hi

/-- Total column count of a successful sample section: the sum of the
declared sample counts, provided each participating record has as many
samples as its source declares. -/
lemma sampleSection_join_length (uf : List String) :
    ∀ (ml : List Bool) (recs : List TRRecord) (ns : List Nat)
      (maps : List (List Nat)) (blocks : List (List String)),
      sampleSection uf recs ml ns maps = some blocks →
      recs.length = ml.length → ns.length = ml.length →
      (∀ (i : Nat) (r : TRRecord), ml[i]? = some true → recs[i]? = some r →
        r.samples.length = ns.getD i 0) →
      blocks.join.length = ns.sum := by
  intro ml
  induction ml with
  | nil =>
    intro recs ns maps blocks hss h1 h2 _
    simp only [sampleSection, Option.some.injEq] at hss
    subst hss
    have : ns = [] := List.length_eq_zero.mp (by simpa using h2)
    simp [this]
  | cons m ml ih =>
    intro recs ns maps blocks hss h1 h2 hsamp
    cases recs with
    | nil => simp at h1
    | cons r rs =>
      cases ns with
      | nil => simp at h2
      | cons n nss =>
        have h1' : rs.length = ml.length := by simpa using h1
        have h2' : nss.length = ml.length := by simpa using h2
        have hsamp' : ∀ (i : Nat) (r' : TRRecord), ml[i]? = some true →
            rs[i]? = some r' → r'.samples.length = nss.getD i 0 := by
          intro i r' hi hr'
          have := hsamp (i + 1) r' (by simpa using hi) (by simpa using hr')
          simpa using this
        simp only [sampleSection] at hss
        cases m with
        | true =>
          simp only [if_true] at hss
          cases maps with
          | nil => simp at hss
          | cons mp mps =>
            cases hw : WriteSampleData r uf mp with
            | none => simp [hw] at hss
            | some cols =>
              cases hrest : sampleSection uf rs ml nss mps with
              | none => simp [hw, hrest] at hss
              | some rest =>
                simp only [hw, hrest, Option.some.injEq] at hss
                subst hss
                have hcols : cols.length = n := by
                  rw [WriteSampleData_length r uf mp cols hw]
                  simpa using hsamp 0 r (by simp) (by simp)
                simp [List.sum_cons, ih rs nss mps rest hrest h1' h2' hsamp',
                  hcols]
        | false =>
          simp only [if_false, Bool.false_eq_true] at hss
          cases hrest : sampleSection uf rs ml nss maps with
          | none => simp [hrest] at hss
          | some rest =>
            simp only [hrest, Option.some.injEq] at hss
            subst hss
            simp [List.sum_cons, ih rs nss maps rest hrest h1' h2' hsamp']

/-- C6: every emitted output record has in total as many sample columns
as the sum of the sources' declared sample counts, and each
non-participating source with `n` declared samples contributes exactly
the block of `n` no-call `"."` columns. -/
theorem C6_sample_columns (vt : VcfTypes) (ns : List Nat)
    (recs : List TRRecord) (ml : List Bool) (ui : List (String × Bool))
    (uf : List String) (trim : Bool) (out : OutRecord) (ws : List Warn)
    (h1 : recs.length = ml.length) (h2 : ns.length = ml.length)
    (hsamp : ∀ (i : Nat) (r : TRRecord), ml[i]? = some true → recs[i]? = some r →
      r.samples.length = ns.getD i 0)
    (hok : MergeRecords vt ns recs ml ui uf trim = .ok (some out, ws)) :
    out.sampleBlocks.join.length = ns.sum ∧
    (∀ i : Nat, ml[i]? = some false →
      out.sampleBlocks[i]? = some (List.replicate (ns.getD i 0) NOCALLSTRING)) := by
  obtain ⟨-, -, first, rest, blocks, -, -, hss, hblocks, -⟩ :=
    MergeRecords_ok_some vt ns recs ml ui uf trim out ws hok
  constructor
  · rw [hblocks]
    exact sampleSection_join_length uf ml recs ns _ blocks hss h1 h2 hsamp
  · intro i hi
    rw [hblocks]
    exact (sampleSection_spec uf ml recs ns _ blocks hss h1 h2).2.1 i hi

/-- The record emitted for the witness run of `C6_sample_columns`:
`recA` participates (one sample, genotype `0/1`), the second source does
not and is padded with one no-call column. -/
def c6Out : OutRecord :=
  { chrom := "chr1", pos := 10, id := "locusA", ref := "TCTG",
    alts := ["TCTGTCTG"], info := [], format := ["GT"],
    sampleBlocks := [["0/1"], ["."]] }

/-- Witness for `C6_sample_columns`: two sources declaring one sample
each, only the first participating. -/
theorem C6_sample_columns_witness :
    c6Out.sampleBlocks.join.length = [1, 1].sum ∧
    (∀ i : Nat, [true, false][i]? = some false →
      c6Out.sampleBlocks[i]? =
        some (List.replicate ([1, 1].getD i 0) NOCALLSTRING)) :=
  C6_sample_columns .hipstr [1, 1] [recA, recB] [true, false] [] [] false
    c6Out [] (by decide) (by decide)
    (by
      intro i r hi hr
      match i with
      | 0 =>
        have : recA = r := by simpa using hr
        subst this
        decide
      | 1 => simp at hi
      | i + 2 => simp at hi)
    rfl

/-- A participating record missing the INFO field makes `collectVals`
raise `ValueError`, whatever was collected before. -/
lemma collectVals_missing (f : String) :
    ∀ (prts : List TRRecord) (acc : List String),
      (∃ r ∈ prts, lookupInfo r f = none) →
      collectVals f prts acc = .error (.missingInfoField f) := by
  intro prts
  induction prts with
  | nil => intro acc h; simp at h
  | cons r rs ih =>
    intro acc h
    unfold collectVals
    cases hl : lookupInfo r f with
    | none => rfl
    | some v =>
      obtain ⟨r', hr', hnone⟩ := h
      rcases List.mem_cons.mp hr' with h1 | h1
      · subst h1
        rw [hl] at hnone
        exact absurd hnone (by simp)
      · exact ih _ ⟨r', h1, hnone⟩

/-- When every participating record carries the same value, the value
set stays a singleton. -/
lemma collectVals_const (f v : String) :
    ∀ prts : List TRRecord, (∀ r ∈ prts, lookupInfo r f = some v) →
      collectVals f prts [v] = .ok [v] := by
  intro prts
  induction prts with
  | nil => intro _; rfl
  | cons r rs ih =>
    intro h
    unfold collectVals
    simp only [h r (List.mem_cons_self r rs)]
    have hins : setInsert [v] v = [v] := by simp [setInsert]
    rw [hins]
    exact ih (fun r' hr' => h r' (List.mem_cons_of_mem r hr'))

/-- Values already collected survive into the final value set. -/
lemma collectVals_sub (f : String) :
    ∀ (prts : List TRRecord) (acc vals : List String),
      collectVals f prts acc = .ok vals → acc ⊆ vals := by
  intro prts
  induction prts with
  | nil =>
    intro acc vals h
    simp only [collectVals, Except.ok.injEq] at h
    exact h ▸ List.Subset.refl acc
  | cons r rs ih =>
    intro acc vals h
    unfold collectVals at h
    cases hl : lookupInfo r f with
    | none => rw [hl] at h; exact absurd h (by simp)
    | some v =>
      rw [hl] at h
      have hsub := ih _ _ h
      intro a ha
      apply hsub
      unfold setInsert
      by_cases hv : v ∈ acc
      · simpa [hv]
      · simp only [hv, if_false, List.mem_append]
        exact Or.inl ha

/-- Every successfully looked-up value appears in the value set. -/
lemma collectVals_mem (f : String) :
    ∀ (prts : List TRRecord) (acc vals : List String) (r : TRRecord)
      (v : String),
      collectVals f prts acc = .ok vals → r ∈ prts →
      lookupInfo r f = some v → v ∈ vals := by
  intro prts
  induction prts with
  | nil => intro acc vals r v _ hm; simp at hm
  | cons r0 rs ih =>
    intro acc vals r v h hm hl
    unfold collectVals at h
    cases hl0 : lookupInfo r0 f with
    | none => rw [hl0] at h; exact absurd h (by simp)
    | some v0 =>
      rw [hl0] at h
      rcases List.mem_cons.mp hm with h1 | h1
      · subst h1
        rw [hl0] at hl
        injection hl with hl
        subst hl
        have hv : v0 ∈ setInsert acc v0 := by
          unfold setInsert
          by_cases hvm : v0 ∈ acc <;> simp [hvm]
        exact collectVals_sub f rs _ _ h hv
      · exact ih _ _ r v h h1 hl

/-- When every participating record has the field, no `ValueError` is
raised. -/
lemma collectVals_ok_of_isSome (f : String) :
    ∀ (prts : List TRRecord) (acc : List String),
      (∀ r ∈ prts, (lookupInfo r f).isSome) →
      ∃ vals, collectVals f prts acc = .ok vals := by
  intro prts
  induction prts with
  | nil => intro acc _; exact ⟨acc, rfl⟩
  | cons r rs ih =>
    intro acc h
    unfold collectVals
    cases hl : lookupInfo r f with
    | none =>
      have := h r (List.mem_cons_self r rs)
      rw [hl] at this
      simp at this
    | some v => exact ih _ (fun r' hr' => h r' (List.mem_cons_of_mem r hr'))

/-- C7 (amended): for a required INFO field, identical values across the
group emit `name=value`; differing values drop just that field with a
warning while the record is still emitted; but a participating record
missing the field raises `ValueError("Missing info field ...")`, which
`MergeRecords` and `main` do not catch: the error propagates out of
`MergeRecords` and the run aborts with the record unfinished, rather
than continuing without the field. -/
theorem C7_info_field_policy (recs : List TRRecord) (ml : List Bool)
    (f : String) :
    (∀ (v : String) (first : TRRecord) (rest : List TRRecord),
       participants recs ml = first :: rest →
       (∀ r ∈ participants recs ml, lookupInfo r f = some v) →
       GetInfoItem recs ml f true = .ok (some (f ++ "=" ++ v), [])) ∧
    (∀ (r1 r2 : TRRecord) (v1 v2 : String),
       r1 ∈ participants recs ml → r2 ∈ participants recs ml →
       lookupInfo r1 f = some v1 → lookupInfo r2 f = some v2 → v1 ≠ v2 →
       (∀ r ∈ participants recs ml, (lookupInfo r f).isSome) →
       ∃ w : Warn, GetInfoItem recs ml f true = .ok (none, [w])) ∧
    (∀ r ∈ participants recs ml, lookupInfo r f = none →
       GetInfoItem recs ml f true = .error (.missingInfoField f)) ∧
    (∀ (vt : VcfTypes) (ns : List Nat) (uf : List String) (trim : Bool)
       (e : MergeError) (first : TRRecord) (rest : List TRRecord)
       (ref : String),
       participants recs ml = first :: rest →
       GetRefAllele recs ml trim = some ref →
       GetInfoItem recs ml f true = .error e →
       MergeRecords vt ns recs ml [(f, true)] uf trim = .error e) ∧
    (∀ (vt : VcfTypes) (ns : List Nat) (uf : List String) (trim : Bool)
       (w : Warn) (first : TRRecord) (rest : List TRRecord) (ref : String)
       (blocks : List (List String)),
       participants recs ml = first :: rest →
       GetRefAllele recs ml trim = some ref →
       GetInfoItem recs ml f true = .ok (none, [w]) →
       sampleSection uf recs ml ns (GetAltAlleles recs ml vt false).2 =
         some blocks →
       MergeRecords vt ns recs ml [(f, true)] uf trim =
         .ok (some { chrom := first.chrom, pos := first.pos,
                     id := GetID first.id, ref := ref,
                     alts := (GetAltAlleles recs ml vt false).1, info := [],
                     format := "GT" :: uf, sampleBlocks := blocks }, [w])) := by
  refine ⟨?_, ?_, ?_, ?_, ?_⟩
  · intro v first rest hpart hall
    have h0 : lookupInfo first f = some v :=
      hall first (hpart ▸ List.mem_cons_self first rest)
    have hrest : collectVals f rest [v] = .ok [v] :=
      collectVals_const f v rest
        (fun r hr => hall r (hpart ▸ List.mem_cons_of_mem first hr))
    have hins : setInsert [] v = [v] := by simp [setInsert]
    simp [GetInfoItem, hpart, collectVals, h0, hins, hrest]
  · intro r1 r2 v1 v2 h1 h2 hl1 hl2 hne hsome
    obtain ⟨vals, hvals⟩ :=
      collectVals_ok_of_isSome f (participants recs ml) [] hsome
    have hv1 : v1 ∈ vals := collectVals_mem f _ _ _ _ _ hvals h1 hl1
    have hv2 : v2 ∈ vals := collectVals_mem f _ _ _ _ _ hvals h2 hl2
    have hne' : participants recs ml ≠ [] := by
      intro h
      rw [h] at h1
      simp at h1
    obtain ⟨rl, hrl⟩ := Option.isSome_iff_exists.mp
      (List.getLast?_isSome.mpr hne')
    cases vals with
    | nil => simp at hv1
    | cons v t =>
      cases t with
      | nil =>
        have e1 : v1 = v := by simpa using hv1
        have e2 : v2 = v := by simpa using hv2
        exact absurd (e1.trans e2.symm) hne
      | cons w t2 =>
        exact ⟨.incompatibleInfo f rl.chrom rl.pos,
          by simp [GetInfoItem, hvals, hrl]⟩
  · intro r hr hnone
    simp [GetInfoItem, collectVals_missing f (participants recs ml) []
      ⟨r, hr, hnone⟩]
  · intro vt ns uf trim e first rest ref hpart href hinfo
    simp [MergeRecords, infoFold, hpart, href, hinfo]
  · intro vt ns uf trim w first rest ref blocks hpart href hinfo hss
    simp [MergeRecords, infoFold, hpart, href, hinfo, hss]

/-- `recA` stripped of its INFO dict: the END field is missing. -/
def recAnoEnd : TRRecord := { recA with info := [] }

/-- C7: Spec claims a participating record missing a required INFO field
still lets the run continue with the record emitted without that field.
In the code `GetInfoItem` raises `ValueError`, which neither
`MergeRecords` nor `main` catches: on this concrete group the merge
aborts with the error and no record is emitted. -/
theorem C7_counterexample :
    MergeRecords .gangstr [1, 1] [recA, recAnoEnd] [true, true]
      [("END", true)] [] false = .error (.missingInfoField "END") := rfl

/-- Witness for `C7_info_field_policy`: the missing-field branch on the
concrete group of `C7_counterexample`. -/
theorem C7_info_field_policy_witness :
    GetInfoItem [recA, recAnoEnd] [true, true] "END" true =
      .error (.missingInfoField "END") :=
  (C7_info_field_policy [recA, recAnoEnd] [true, true] "END").2.2.1 recAnoEnd
    (by decide) (by decide)

/-- A hipstr record whose trimmed representation differs from the raw
vcf one: raw REF `TCA` / ALT `TCATCA`, trimmed ref `tc` / trimmed alt
`TCT`. -/
def recTrim : TRRecord :=
  { chrom := "chr1", pos := 10, end_pos := 20, trimmed_pos := 11,
    trimmed_end_pos := 19, vcfrecordREF := "TCA", ref_allele := "tc",
    vcfrecordALT := ["TCATCA"], alt_alleles := ["TCT"],
    id := none, info := [], samples := [], fmtData := [] }

/-- The reference allele of an emitted `MergeRecords` result. -/
def emittedRef :
    Except MergeError (Option OutRecord × List Warn) → Option String
  | .ok (some out, _) => some out.ref
  | _ => none

/-- The alternate-allele list of an emitted `MergeRecords` result. -/
def emittedAlts :
    Except MergeError (Option OutRecord × List Warn) → Option (List String)
  | .ok (some out, _) => some out.alts
  | _ => none

/-- A hipstr record with one sample whose trimmed and untrimmed
alternates sort differently, so the AlleleMaps differ: untrimmed alts
`["TCAG", "TC"]` give the unified list `["TC", "TCAG"]` and the map
`[0, 2, 1]`, while the trimmed alts `["AG", "AGG"]` would give
`["AG", "AGG"]` and the map `[0, 1, 2]`. -/
def recTrim2 : TRRecord :=
  { chrom := "chr1", pos := 10, end_pos := 20, trimmed_pos := 11,
    trimmed_end_pos := 19, vcfrecordREF := "TCA", ref_allele := "tc",
    vcfrecordALT := ["TCAG", "TC"], alt_alleles := ["AG", "AGG"],
    id := none, info := [], samples := [⟨[1, 2], false⟩], fmtData := [] }

/-- The sample blocks of an emitted `MergeRecords` result. -/
def emittedBlocks :
    Except MergeError (Option OutRecord × List Warn) →
    Option (List (List String))
  | .ok (some out, _) => some out.sampleBlocks
  | _ => none

/-- C9: with trimming enabled the emitted reference comes from the
trimmed reference alleles (`GetRefAllele` with `trim=True`) while the
emitted alternates and the per-source AlleleMaps come from the untrimmed
alternates, because `MergeRecords` calls `GetAltAlleles` without the
trim flag: the sample section re-indexing the genotypes is produced from
the mapping component `(GetAltAlleles ... trim=false).2`.  Concretely,
`recTrim` (trimmed ref `tc`, trimmed alt `TCT`) is emitted with
reference `TC` but alternate list `["TCATCA"]`, the upper-cased
untrimmed alternates; and `recTrim2`, whose untrimmed AlleleMap
`[0, 2, 1]` differs from the trimmed one `[0, 1, 2]`, has its sample
genotype `[1, 2]` re-indexed through the untrimmed map, emitting the
column `2/1` (the trimmed map would have emitted `1/2`). -/
theorem C9_trim_asymmetry (vt : VcfTypes) (ns : List Nat)
    (recs : List TRRecord) (ml : List Bool) (ui : List (String × Bool))
    (uf : List String) :
    (∀ (out : OutRecord) (ws : List Warn),
       MergeRecords vt ns recs ml ui uf true = .ok (some out, ws) →
       GetRefAllele recs ml true = some out.ref ∧
       out.alts = (GetAltAlleles recs ml vt false).1 ∧
       ∃ blocks : List (List String),
         sampleSection uf recs ml ns (GetAltAlleles recs ml vt false).2 =
           some blocks ∧
         out.sampleBlocks = blocks) ∧
    ((GetAltAlleles [recTrim] [true] VcfTypes.hipstr false).1 = ["TCATCA"] ∧
     (GetAltAlleles [recTrim] [true] VcfTypes.hipstr true).1 = ["TCT"] ∧
     emittedRef (MergeRecords .hipstr [0] [recTrim] [true] [] [] true) =
       some "TC" ∧
     emittedAlts (MergeRecords .hipstr [0] [recTrim] [true] [] [] true) =
       some ["TCATCA"]) ∧
    ((GetAltAlleles [recTrim2] [true] VcfTypes.hipstr false).2 = [[0, 2, 1]] ∧
     (GetAltAlleles [recTrim2] [true] VcfTypes.hipstr true).2 = [[0, 1, 2]] ∧
     emittedBlocks (MergeRecords .hipstr [1] [recTrim2] [true] [] [] true) =
       some [["2/1"]]) := by
  refine ⟨?_, ?_, ?_⟩
  · intro out ws hok
    obtain ⟨href, halts, first, rest, blocks, -, -, hss, hblocks, -⟩ :=
      MergeRecords_ok_some vt ns recs ml ui uf true out ws hok
    exact ⟨href, halts, blocks, hss, hblocks⟩
  · exact ⟨by decide, by decide, rfl, rfl⟩
  · exact ⟨by decide, by decide, rfl⟩

/-- The record emitted for the witness run of `C9_trim_asymmetry`:
reference from the trimmed `tc`, alternates and genotype re-indexing
from the untrimmed alleles of `recTrim2`. -/
def c9Out : OutRecord :=
  { chrom := "chr1", pos := 10, id := ".", ref := "TC",
    alts := ["TC", "TCAG"], info := [], format := ["GT"],
    sampleBlocks := [["2/1"]] }

/-- Witness for `C9_trim_asymmetry`: the concrete trimmed merge of
`recTrim2`, whose sample block comes from the untrimmed AlleleMap. -/
theorem C9_trim_asymmetry_witness :
    GetRefAllele [recTrim2] [true] true = some c9Out.ref ∧
    c9Out.alts = (GetAltAlleles [recTrim2] [true] VcfTypes.hipstr false).1 ∧
    ∃ blocks : List (List String),
      sampleSection [] [recTrim2] [true] [1]
        (GetAltAlleles [recTrim2] [true] VcfTypes.hipstr false).2 =
        some blocks ∧
      c9Out.sampleBlocks = blocks :=
  (C9_trim_asymmetry .hipstr [1] [recTrim2] [true] [] []).1 c9Out [] rfl

end MergeSTR
